import Mathlib

/-!
Verification of the transcript-discovery and association core of the
MeetingsTranscriptPOC repository (supabase/functions/process-transcripts/index.ts).

File names and file contents are modelled as lists of characters (`Name`).
Network behaviour (Microsoft Graph listings, searches, content downloads) is
modelled by an explicit environment `Env`; a call can throw (`Resp.throws`),
return a non-success status (`Resp.notOk`) or succeed with a payload
(`Resp.ok`).  Thrown exceptions are modelled with `Except Unit`; the
`try`/`catch` blocks of the source are the explicit `match`es on the
`Except` results.
-/

/-- File names / textual payloads, modelled as lists of characters. -/
abbrev Name := List Char

/-- Substring test, the model of JavaScript `String.prototype.includes`. -/
def containsSub (hay needle : Name) : Bool :=
  needle.isPrefixOf hay ||
    match hay with
    | [] => false
    | _ :: t => containsSub t needle

/-- Suffix test, the model of JavaScript `String.prototype.endsWith`
(case-sensitive). -/
def endsWithS (suffix hay : Name) : Bool :=
  suffix.isSuffixOf hay

/-- Case-insensitive equality of names, the model of a case-insensitive
regular-expression match of a fixed pattern (`/.../i`). -/
def eqCI (a b : Name) : Bool :=
  a.map Char.toLower == b.map Char.toLower

/-- Case-insensitive suffix test: does `s` end with the fixed pattern `p`
up to letter case? -/
def suffixCI (p s : Name) : Bool :=
  decide (p.length ≤ s.length) && eqCI (s.drop (s.length - p.length)) p

/-- One suffix replacement: remove the trailing occurrence of the fixed
pattern `p` (case-insensitively) if `s` ends with it, else return `s`. -/
def stripSuffixCI (p s : Name) : Name :=
  if suffixCI p s then s.take (s.length - p.length) else s

/-- The `_\d{6}UTC-Meeting Recording\.mp4$` stripping rule
(`/.../i`): if `s` ends with an underscore, six digits and
`UTC-Meeting Recording.mp4` (letters compared case-insensitively),
return the part before that suffix, else `none`. -/
def ruleOne (s : Name) : Option Name :=
  let p := ("UTC-Meeting Recording.mp4").data
  if decide (7 + p.length ≤ s.length)
      && eqCI (s.drop (s.length - p.length)) p
      && ((s.drop (s.length - p.length - 6)).take 6).all Char.isDigit
      && (s[s.length - p.length - 7]? == some '_') then
    some (s.take (s.length - p.length - 7))
  else
    none

/-- The three chained suffix replacements used by
`tryFetchTranscriptFromDriveItem` (source lines 466-469 and 604-607):
strip a trailing `_ddddddUTC-Meeting Recording.mp4`, then a trailing
`-Meeting Recording.mp4`, then a trailing `.mp4` (all case-insensitive),
applied in sequence, each to the previous result. -/
def baseName (s : Name) : Name :=
  let s1 := match ruleOne s with
    | some t => t
    | none => s
  let s2 := stripSuffixCI (("-Meeting Recording.mp4").data) s1
  stripSuffixCI ((".mp4").data) s2

/-- The two chained suffix replacements used by `fetchSharePointTranscripts`
(source lines 734-736): same as `baseName` but without the final
`.replace(/\.mp4$/i, '')`. -/
def baseNameScan (s : Name) : Name :=
  let s1 := match ruleOne s with
    | some t => t
    | none => s
  stripSuffixCI (("-Meeting Recording.mp4").data) s1

/-- `name.endsWith(".vtt")`. -/
def endsVtt (n : Name) : Bool := endsWithS ((".vtt").data) n

/-- `baseName.split('-')[0]`: the first hyphen-delimited token. -/
def firstToken (b : Name) : Name :=
  b.takeWhile (fun c => !(c == '-'))

/-- The candidate matcher of the parent-folder rescan
(source lines 475-483): the `matchPatterns` disjunction guarded by
`file.name.endsWith('.vtt')`. -/
def candidateMatches (b fn : Name) : Bool :=
  endsVtt fn &&
    (fn == b ++ ((".vtt").data) ||
     fn == b ++ (("-transcript.vtt").data) ||
     (b.isPrefixOf fn && endsVtt fn) ||
     (containsSub fn (firstToken b) && endsVtt fn))

/-- The filter used inside the `Transcript`/`Transcripts` subfolder strategy
(source line 558): `file.name.endsWith('.vtt') && file.name.includes(baseName.split('-')[0])`. -/
def transcriptFolderMatches (b fn : Name) : Bool :=
  endsVtt fn && containsSub fn (firstToken b)

/-- The filter used on full-text search results (source line 631):
`result.name.endsWith('.vtt')` (no name comparison at all). -/
def searchResultMatches (fn : Name) : Bool :=
  endsVtt fn

/-- A drive item as seen in a Graph folder listing or search result. -/
structure Item where
  id : Name
  name : Name
  isFile : Bool
  isFolder : Bool
  webUrl : Name
  downloadUrl : Name
  lastModified : Name
deriving DecidableEq

/-- The `TranscriptFile` record produced by the source
(a `ResolvedTranscript` in the specification's terms). -/
structure TranscriptFile where
  name : Name
  content : Name
  url : Name
  lastModified : Name
  videoUrl : Option Name
  videoFileName : Option Name
deriving DecidableEq

/-- Outcome of one Graph request: a thrown exception, a non-success HTTP
status (`response.ok === false`), or success with a payload. -/
inductive Resp (α : Type) where
  | throws
  | notOk
  | ok (val : α)
deriving DecidableEq

/-- The external world as the resolver and orchestrator see it.
`children i` lists the children of item `i`; `itemMeta i` fetches item `i`
and yields its `parentReference.id`; `search q` is the drive-wide search;
`versions`, `analytics`, `beta`, `thumbs` are the diagnostic calls whose
payloads are unused but which can still throw; `download u` fetches a
file body (the source never checks `response.ok` on downloads, so a
download either throws or yields text). -/
structure Env where
  children : Name → Resp (List Item)
  itemMeta : Name → Resp Name
  search : Name → Resp (List Item)
  versions : Name → Resp Unit
  analytics : Name → Resp Unit
  beta : Name → Resp Unit
  thumbs : Name → Resp Unit
  download : Name → Except Unit Name

/-- `fetch(downloadUrl)` + `.text()` followed by construction of the
returned transcript record (the common shape of source lines 486-497 etc.). -/
def downloadTF (env : Env) (it : Item) (videoUrl : Option Name)
    (fileName : Name) : Except Unit TranscriptFile :=
  match env.download it.downloadUrl with
  | .error e => .error e
  | .ok c =>
      .ok { name := it.name, content := c, url := it.webUrl,
            lastModified := it.lastModified,
            videoUrl := videoUrl, videoFileName := some fileName }

/-- Scan a listing for the first item accepted by `accept`, download it and
return the transcript; a download exception propagates. -/
def findVttAndFetch (env : Env) (accept : Item → Bool) (fileName : Name)
    (videoUrl : Option Name) : List Item → Except Unit (Option TranscriptFile)
  | [] => .ok none
  | f :: rest =>
      if accept f then
        match downloadTF env f videoUrl fileName with
        | .error e => .error e
        | .ok t => .ok (some t)
      else
        findVttAndFetch env accept fileName videoUrl rest

/-- The body of `tryFetchTranscriptFromStream` (source lines 348-424):
list the recording item's own children, accept the first `.vtt` file child;
then the beta-media and thumbnails diagnostic calls; exceptions propagate
to this function's own `catch`. -/
def streamBody (env : Env) (driveItemId : Name) (fileName : Name)
    (videoUrl : Option Name) : Except Unit (Option TranscriptFile) :=
  match (match env.children driveItemId with
         | .throws => Except.error ()
         | .notOk => Except.ok none
         | .ok cs =>
             findVttAndFetch env (fun f => f.isFile && endsVtt f.name)
               fileName videoUrl cs) with
  | .error e => .error e
  | .ok (some t) => .ok (some t)
  | .ok none =>
      match env.beta driveItemId with
      | .throws => .error ()
      | _ =>
          match env.thumbs driveItemId with
          | .throws => .error ()
          | _ => .ok none

/-- `tryFetchTranscriptFromStream`: its own `try`/`catch` turns any thrown
exception into `null`. -/
def tryFetchTranscriptFromStream (env : Env) (driveItemId : Name)
    (fileName : Name) (videoUrl : Option Name) : Option TranscriptFile :=
  match streamBody env driveItemId fileName videoUrl with
  | .ok r => r
  | .error _ => none

/-- The parent-folder portion of `tryFetchTranscriptFromDriveItem`
(source lines 464-579): candidate-matcher rescan of the parent listing,
then the recording-named subfolder, then the `Transcript`/`Transcripts`
subfolder.  Exceptions propagate to the resolver's single outer `catch`. -/
def parentPhase (env : Env) (b : Name) (fileName : Name)
    (videoUrl : Option Name) (allItems : List Item) :
    Except Unit (Option TranscriptFile) :=
  match findVttAndFetch env (fun f => f.isFile && candidateMatches b f.name)
        fileName videoUrl allItems with
  | .error e => .error e
  | .ok (some t) => .ok (some t)
  | .ok none =>
      match (match allItems.find?
               (fun i => i.isFolder && (i.name == b || containsSub i.name b)) with
             | some fm =>
                 match env.children fm.id with
                 | .throws => Except.error ()
                 | .notOk => Except.ok none
                 | .ok kids =>
                     findVttAndFetch env (fun f => f.isFile && endsVtt f.name)
                       fileName videoUrl kids
             | none => Except.ok none) with
      | .error e => .error e
      | .ok (some t) => .ok (some t)
      | .ok none =>
          match allItems.find?
                (fun i => i.isFolder &&
                  (i.name == ("Transcript").data || i.name == ("Transcripts").data)) with
          | some tf =>
              match env.children tf.id with
              | .throws => .error ()
              | .notOk => .ok none
              | .ok kids =>
                  findVttAndFetch env
                    (fun f => f.isFile && transcriptFolderMatches b f.name)
                    fileName videoUrl kids
          | none => .ok none

/-- The four search queries issued by the full-text search fallback
(source lines 609-614), in order. -/
def searchQueries (b : Name) : List Name :=
  [b ++ ((".vtt").data),
   b ++ (("-transcript.vtt").data),
   firstToken b ++ ((".vtt").data),
   firstToken b]

/-- The search fallback (source lines 616-649): issue each query in turn;
a non-success response moves to the next query, the first `.vtt` result of
a successful query is downloaded and returned; exceptions propagate. -/
def runSearches (env : Env) (fileName : Name) (videoUrl : Option Name) :
    List Name → Except Unit (Option TranscriptFile)
  | [] => .ok none
  | q :: rest =>
      match env.search q with
      | .throws => .error ()
      | .notOk => runSearches env fileName videoUrl rest
      | .ok results =>
          match findVttAndFetch env
                (fun f => f.isFile && searchResultMatches f.name)
                fileName videoUrl results with
          | .error e => .error e
          | .ok (some t) => .ok (some t)
          | .ok none => runSearches env fileName videoUrl rest

/-- The body of `tryFetchTranscriptFromDriveItem` (source lines 433-652),
i.e. everything inside its single `try`: the stream strategy (which has
its own internal catch), the item-metadata fetch, the parent-folder phase,
the versions/analytics diagnostic calls and the search fallback. -/
def tryFetchBody (env : Env) (driveItemId : Name) (fileName : Name)
    (videoUrl : Option Name) : Except Unit (Option TranscriptFile) :=
  match tryFetchTranscriptFromStream env driveItemId fileName videoUrl with
  | some t => .ok (some t)
  | none =>
      match env.itemMeta driveItemId with
      | .throws => .error ()
      | .notOk => .ok none
      | .ok parentId =>
          match (match env.children parentId with
                 | .throws => Except.error ()
                 | .notOk => Except.ok none
                 | .ok allItems =>
                     parentPhase env (baseName fileName) fileName videoUrl allItems) with
          | .error e => .error e
          | .ok (some t) => .ok (some t)
          | .ok none =>
              match env.versions driveItemId with
              | .throws => .error ()
              | _ =>
                  match env.analytics driveItemId with
                  | .throws => .error ()
                  | _ =>
                      runSearches env fileName videoUrl
                        (searchQueries (baseName fileName))

/-- `tryFetchTranscriptFromDriveItem` with its outer `catch` made explicit:
a thrown exception anywhere in the body is converted to a normal `null`
result (`.ok none`). -/
def tryFetchTranscriptFromDriveItemE (env : Env) (driveItemId : Name)
    (fileName : Name) (videoUrl : Option Name) :
    Except Unit (Option TranscriptFile) :=
  match tryFetchBody env driveItemId fileName videoUrl with
  | .error _ => .ok none
  | .ok r => .ok r

/-- `tryFetchTranscriptFromDriveItem` as its callers see it. -/
def tryFetchTranscriptFromDriveItem (env : Env) (driveItemId : Name)
    (fileName : Name) (videoUrl : Option Name) : Option TranscriptFile :=
  match tryFetchTranscriptFromDriveItemE env driveItemId fileName videoUrl with
  | .ok r => r
  | .error _ => none

/-- `f.file && f.name.endsWith(".vtt")` (source line 705). -/
def isVttItem (f : Item) : Bool := f.isFile && endsVtt f.name

/-- `f.file && f.name.endsWith(".mp4") && f.name.includes("Meeting Recording")`
(source line 706). -/
def isMp4Recording (f : Item) : Bool :=
  f.isFile && endsWithS ((".mp4").data) f.name &&
    containsSub f.name (("Meeting Recording").data)

/-- `file.file && (file.name.endsWith(".txt") || file.name.endsWith(".docx"))`
(source line 786). -/
def isTextItem (f : Item) : Bool :=
  f.isFile && (endsWithS ((".txt").data) f.name ||
               endsWithS ((".docx").data) f.name)

/-- A transcript record with no video association (source lines 718-723). -/
def mkStandalone (f : Item) (c : Name) : TranscriptFile :=
  { name := f.name, content := c, url := f.webUrl,
    lastModified := f.lastModified, videoUrl := none, videoFileName := none }

/-- A transcript record associated to recording `m` (source lines 751-758). -/
def mkAttached (v : Item) (c : Name) (m : Item) : TranscriptFile :=
  { name := v.name, content := c, url := v.webUrl,
    lastModified := v.lastModified,
    videoUrl := some m.webUrl, videoFileName := some m.name }

/-- First orchestrator pass (source lines 712-730): every `.vtt` file in the
listing is downloaded and emitted standalone, and its name is added to
`processedVttNames`; a download exception is caught and the file skipped.
Returns the emitted transcripts and the consumed-name set. -/
def pass1 (env : Env) : List Item → List TranscriptFile × List Name
  | [] => ([], [])
  | v :: rest =>
      match env.download v.downloadUrl with
      | .ok c =>
          let r := pass1 env rest
          (mkStandalone v c :: r.1, v.name :: r.2)
      | .error _ => pass1 env rest

/-- One iteration of the recording loop (source lines 732-783) for
recording `m`: skip if the expected same-folder VTT name was already
consumed; otherwise attach the same-folder VTT if present and unconsumed
(its download failure is caught and the iteration skipped); otherwise
delegate to `tryFetchTranscriptFromDriveItem` (whose result is pushed
without touching the consumed set). -/
def pass2Step (env : Env) (vttFiles : List Item) (m : Item)
    (processed : List Name) : Option TranscriptFile × List Name :=
  let possible := baseNameScan m.name ++ ((".vtt").data)
  if processed.contains possible then (none, processed)
  else
    match vttFiles.find? (fun f => f.name == possible) with
    | some v =>
        if processed.contains v.name then
          (tryFetchTranscriptFromDriveItem env m.id m.name (some m.webUrl),
           processed)
        else
          match env.download v.downloadUrl with
          | .ok c => (some (mkAttached v c m), v.name :: processed)
          | .error _ => (none, processed)
    | none =>
        (tryFetchTranscriptFromDriveItem env m.id m.name (some m.webUrl),
         processed)

/-- Second orchestrator pass: fold `pass2Step` over the recordings. -/
def pass2 (env : Env) (vttFiles : List Item) :
    List Item → List Name → List TranscriptFile × List Name
  | [], processed => ([], processed)
  | m :: rest, processed =>
      let s := pass2Step env vttFiles m processed
      let r := pass2 env vttFiles rest s.2
      (s.1.toList ++ r.1, r.2)

/-- Third orchestrator pass (source lines 785-804): every `.txt`/`.docx`
file is downloaded and emitted standalone, unconditionally; download
exceptions are caught and the file skipped. -/
def pass3 (env : Env) : List Item → List TranscriptFile
  | [] => []
  | f :: rest =>
      if isTextItem f then
        match env.download f.downloadUrl with
        | .ok c => mkStandalone f c :: pass3 env rest
        | .error _ => pass3 env rest
      else pass3 env rest

/-- The pure core of `fetchSharePointTranscripts` (source lines 701-807),
taking the already-fetched folder listing. -/
def fetchSharePointTranscripts (env : Env) (allFiles : List Item) :
    List TranscriptFile :=
  let vttFiles := allFiles.filter isVttItem
  let mp4Files := allFiles.filter isMp4Recording
  let r1 := pass1 env vttFiles
  let r2 := pass2 env vttFiles mp4Files r1.2
  r1.1 ++ r2.1 ++ pass3 env allFiles

/-- Outcome of one `upsert` into the `transcripts` table as the `fetch`
action handler observes it (source lines 157-187): success with a row,
success with no row, an error object, or a thrown exception. -/
inductive PersistResult where
  | okData
  | okNone
  | errMsg (m : Name)
  | throwsMsg (m : Name)

/-- The storage loop of the `fetch` action handler (source lines 153-188):
successful upserts accumulate in `storedTranscripts`, upsert errors and
exceptions accumulate in `errors` keyed by the transcript's file name. -/
def handleLoop (persist : TranscriptFile → PersistResult) :
    List TranscriptFile → List TranscriptFile × List (Name × Name)
  | [] => ([], [])
  | t :: rest =>
      let r := handleLoop persist rest
      match persist t with
      | .okData => (t :: r.1, r.2)
      | .okNone => r
      | .errMsg m => (r.1, (t.name, m) :: r.2)
      | .throwsMsg m => (r.1, (t.name, m) :: r.2)

/-- The caller-facing response of the `fetch` action (source lines 196-203):
`count` is the number of stored rows, `total` the number of transcript
files the scan produced, plus the stored rows and the error list. -/
structure FetchResponse where
  count : Nat
  total : Nat
  stored : List TranscriptFile
  errors : List (Name × Name)
deriving DecidableEq

/-- The `fetch` action end to end (scan, then the storage loop). -/
def runFetchAction (env : Env) (persist : TranscriptFile → PersistResult)
    (allFiles : List Item) : FetchResponse :=
  let ts := fetchSharePointTranscripts env allFiles
  let r := handleLoop persist ts
  { count := r.1.length, total := ts.length, stored := r.1, errors := r.2 }

/-! Concrete test fixtures used by the scenario theorems below. -/

/-- A `.vtt` file named `Weekly Sync.vtt`. -/
def itWeeklyVtt : Item where
  id := ("v1").data
  name := ("Weekly Sync.vtt").data
  isFile := true
  isFolder := false
  webUrl := ("wv").data
  downloadUrl := ("dv").data
  lastModified := ("t1").data

/-- The recording `Weekly Sync_240115UTC-Meeting Recording.mp4`. -/
def itWeeklyMp4 : Item where
  id := ("m1").data
  name := ("Weekly Sync_240115UTC-Meeting Recording.mp4").data
  isFile := true
  isFolder := false
  webUrl := ("wm").data
  downloadUrl := ("dm").data
  lastModified := ("t2").data

/-- Environment for the two-file `Weekly Sync` scenario: no Graph fallback
data, only the `Weekly Sync.vtt` body downloads successfully. -/
def envWeekly : Env where
  children := fun _ => Resp.notOk
  itemMeta := fun _ => Resp.notOk
  search := fun _ => Resp.notOk
  versions := fun _ => Resp.notOk
  analytics := fun _ => Resp.notOk
  beta := fun _ => Resp.notOk
  thumbs := fun _ => Resp.notOk
  download := fun d => if d == ("dv").data then Except.ok ("WEBVTT").data else Except.error ()

/-- A `.vtt` file `Alpha notes.vtt` (loosely matching base name `Alpha`). -/
def itAlphaVtt : Item where
  id := ("v1").data
  name := ("Alpha notes.vtt").data
  isFile := true
  isFolder := false
  webUrl := ("wv").data
  downloadUrl := ("dv").data
  lastModified := ("t1").data

/-- The recording `Alpha-Meeting Recording.mp4`. -/
def itAlphaMp4 : Item where
  id := ("m1").data
  name := ("Alpha-Meeting Recording.mp4").data
  isFile := true
  isFolder := false
  webUrl := ("wm").data
  downloadUrl := ("dm").data
  lastModified := ("t2").data

/-- Environment in which the recording's parent folder re-lists the very
same two files of the original folder listing (the realistic behaviour of
the parent-folder rescan strategy). -/
def envAlpha : Env where
  children := fun i => if i == ("p1").data then Resp.ok [itAlphaVtt, itAlphaMp4] else Resp.notOk
  itemMeta := fun i => if i == ("m1").data then Resp.ok ("p1").data else Resp.notOk
  search := fun _ => Resp.notOk
  versions := fun _ => Resp.notOk
  analytics := fun _ => Resp.notOk
  beta := fun _ => Resp.notOk
  thumbs := fun _ => Resp.notOk
  download := fun d => if d == ("dv").data then Except.ok ("WEBVTT").data else Except.error ()

/-- A `.vtt` file whose download always fails. -/
def itBadVtt : Item where
  id := ("b1").data
  name := ("B.vtt").data
  isFile := true
  isFolder := false
  webUrl := ("wb").data
  downloadUrl := ("db").data
  lastModified := ("t5").data

/-- A `.vtt` file whose download succeeds. -/
def itGoodVtt : Item where
  id := ("c1").data
  name := ("C.vtt").data
  isFile := true
  isFolder := false
  webUrl := ("wc").data
  downloadUrl := ("dc").data
  lastModified := ("t6").data

/-- Environment in which only `C.vtt` downloads successfully. -/
def envBadGood : Env where
  children := fun _ => Resp.notOk
  itemMeta := fun _ => Resp.notOk
  search := fun _ => Resp.notOk
  versions := fun _ => Resp.notOk
  analytics := fun _ => Resp.notOk
  beta := fun _ => Resp.notOk
  thumbs := fun _ => Resp.notOk
  download := fun d => if d == ("dc").data then Except.ok ("CBODY").data else Except.error ()

/-- Environment in which every external call fails. -/
def envAllFail : Env where
  children := fun _ => Resp.notOk
  itemMeta := fun _ => Resp.notOk
  search := fun _ => Resp.notOk
  versions := fun _ => Resp.notOk
  analytics := fun _ => Resp.notOk
  beta := fun _ => Resp.notOk
  thumbs := fun _ => Resp.notOk
  download := fun _ => Except.error ()

/-- A persistence gateway whose upserts always succeed with a row. -/
def persistAllOk : TranscriptFile → PersistResult := fun _ => PersistResult.okData

/-- A matching VTT sibling `A.vtt` whose download throws. -/
def itThrowingSibling : Item where
  id := ("g1").data
  name := ("A.vtt").data
  isFile := true
  isFolder := false
  webUrl := ("wg").data
  downloadUrl := ("dg").data
  lastModified := ("t3").data

/-- A search hit `A search hit.vtt` whose download succeeds. -/
def itSearchHit : Item where
  id := ("s1").data
  name := ("A search hit.vtt").data
  isFile := true
  isFolder := false
  webUrl := ("ws").data
  downloadUrl := ("ds").data
  lastModified := ("t4").data

/-- Environment in which the parent rescan finds `A.vtt` but downloading it
throws, while the search fallback holds a downloadable hit. -/
def envThrowingSibling : Env where
  children := fun i => if i == ("p1").data then Resp.ok [itThrowingSibling] else Resp.notOk
  itemMeta := fun i => if i == ("m1").data then Resp.ok ("p1").data else Resp.notOk
  search := fun _ => Resp.ok [itSearchHit]
  versions := fun _ => Resp.notOk
  analytics := fun _ => Resp.notOk
  beta := fun _ => Resp.notOk
  thumbs := fun _ => Resp.notOk
  download := fun d => if d == ("ds").data then Except.ok ("SR").data else Except.error ()

/-- Same as `envThrowingSibling` except that the parent-folder listing
itself returns a non-success status, so the resolver reaches the search
fallback cleanly. -/
def envSearchOnly : Env where
  children := fun _ => Resp.notOk
  itemMeta := fun i => if i == ("m1").data then Resp.ok ("p1").data else Resp.notOk
  search := fun _ => Resp.ok [itSearchHit]
  versions := fun _ => Resp.notOk
  analytics := fun _ => Resp.notOk
  beta := fun _ => Resp.notOk
  thumbs := fun _ => Resp.notOk
  download := fun d => if d == ("ds").data then Except.ok ("SR").data else Except.error ()

/-- A subfolder named exactly `Weekly Sync`. -/
def itWeeklyFolder : Item where
  id := ("f1").data
  name := ("Weekly Sync").data
  isFile := false
  isFolder := true
  webUrl := ("wf").data
  downloadUrl := ("df").data
  lastModified := ("t7").data

/-- A `.vtt` file with a name unrelated to any base name. -/
def itUnrelatedVtt : Item where
  id := ("u1").data
  name := ("Totally Different.vtt").data
  isFile := true
  isFolder := false
  webUrl := ("wu").data
  downloadUrl := ("du").data
  lastModified := ("t8").data

/-- Environment in which the recording's parent folder holds only the
`Weekly Sync` subfolder, which in turn holds only `Totally Different.vtt`. -/
def envSubfolder : Env where
  children := fun i =>
    if i == ("p1").data then Resp.ok [itWeeklyFolder]
    else if i == ("f1").data then Resp.ok [itUnrelatedVtt]
    else Resp.notOk
  itemMeta := fun i => if i == ("m1").data then Resp.ok ("p1").data else Resp.notOk
  search := fun _ => Resp.notOk
  versions := fun _ => Resp.notOk
  analytics := fun _ => Resp.notOk
  beta := fun _ => Resp.notOk
  thumbs := fun _ => Resp.notOk
  download := fun d => if d == ("du").data then Except.ok ("UB").data else Except.error ()

/-- A matching sibling `A.vtt` whose download succeeds. -/
def itOkSibling : Item where
  id := ("a1").data
  name := ("A.vtt").data
  isFile := true
  isFolder := false
  webUrl := ("wa").data
  downloadUrl := ("da").data
  lastModified := ("t9").data

/-- Environment in which listing the recording's own children throws, but
the parent rescan succeeds and holds a downloadable matching VTT. -/
def envStreamThrows : Env where
  children := fun i =>
    if i == ("m1").data then Resp.throws
    else if i == ("p1").data then Resp.ok [itOkSibling]
    else Resp.notOk
  itemMeta := fun i => if i == ("m1").data then Resp.ok ("p1").data else Resp.notOk
  search := fun _ => Resp.notOk
  versions := fun _ => Resp.notOk
  analytics := fun _ => Resp.notOk
  beta := fun _ => Resp.notOk
  thumbs := fun _ => Resp.notOk
  download := fun d => if d == ("da").data then Except.ok ("AB").data else Except.error ()

/-! Bridge lemmas between the executable string tests and their
propositional counterparts. -/

/-- `containsSub` decides list containment (the model of `String.includes`). -/
theorem containsSub_iff {hay needle : Name} :
    containsSub hay needle = true ↔ needle <:+: hay := by
  induction hay with
  | nil =>
      simp [containsSub, List.isPrefixOf_iff_prefix]
  | cons a t ih =>
      rw [containsSub]
      simp [Bool.or_eq_true, List.isPrefixOf_iff_prefix, ih, List.infix_cons_iff]

/-- `endsWithS` decides the suffix relation (the model of `String.endsWith`). -/
theorem endsWithS_iff {s n : Name} : endsWithS s n = true ↔ s <:+ n := by
  simp [endsWithS, List.isSuffixOf_iff_suffix]

/-- The first hyphen token is a prefix of the base name. -/
theorem firstToken_front (b : Name) : firstToken b <+: b :=
  List.takeWhile_prefix _

/-- A suffix of `x` is what `drop` leaves of `x`. -/
theorem suffix_drop_eq {s x : Name} (h : s <:+ x) :
    x.drop (x.length - s.length) = s := by
  obtain ⟨a, rfl⟩ := h
  have hl : (a ++ s).length - s.length = a.length := by
    simp [List.length_append]
  rw [hl]
  exact List.drop_left a s

/-- Two suffixes of one list are nested: the longer one determines the
shorter one as its own suffix. -/
theorem suffix_nested {s₁ s₂ x : Name} (h₁ : s₁ <:+ x) (h₂ : s₂ <:+ x)
    (hle : s₁.length ≤ s₂.length) : s₂.drop (s₂.length - s₁.length) = s₁ := by
  obtain ⟨a, rfl⟩ := h₂
  have hx := suffix_drop_eq h₁
  have hlen : (a ++ s₂).length - s₁.length = a.length + (s₂.length - s₁.length) := by
    simp [List.length_append]
    omega
  rw [hlen, ← List.drop_drop, List.drop_left] at hx
  exact hx

/-- Names carrying incompatible suffixes are distinct: if `n₁` ends with
`s₁`, `n₂` ends with `s₂`, `s₁` is no longer than `s₂` and `s₁` is not the
tail of `s₂`, then `n₁ ≠ n₂`. -/
theorem ne_of_distinct_suffixes {n₁ n₂ s₁ s₂ : Name}
    (h₁ : endsWithS s₁ n₁ = true) (h₂ : endsWithS s₂ n₂ = true)
    (hle : s₁.length ≤ s₂.length)
    (hne : s₂.drop (s₂.length - s₁.length) ≠ s₁) : n₁ ≠ n₂ := by
  intro he
  subst he
  exact hne (suffix_nested (endsWithS_iff.mp h₁) (endsWithS_iff.mp h₂) hle)

/-- A name ending in `.vtt` never ends in `.txt` or `.docx`. -/
theorem vtt_ne_text {a b : Name} (ha : endsVtt a = true)
    (hb : (endsWithS ((".txt").data) b || endsWithS ((".docx").data) b) = true) :
    a ≠ b := by
  rcases Bool.or_eq_true _ _ |>.mp hb with h | h
  · exact ne_of_distinct_suffixes ha h (by decide) (by decide)
  · exact ne_of_distinct_suffixes ha h (by decide) (by decide)

/-- A name ending in `.vtt`, `.txt` or `.docx` never ends in `.mp4`. -/
theorem scanname_ne_mp4 {a b : Name}
    (ha : (endsVtt a || (endsWithS ((".txt").data) a || endsWithS ((".docx").data) a)) = true)
    (hb : endsWithS ((".mp4").data) b = true) : a ≠ b := by
  rcases Bool.or_eq_true _ _ |>.mp ha with h | h
  · exact ne_of_distinct_suffixes h hb (by decide) (by decide)
  · rcases Bool.or_eq_true _ _ |>.mp h with h2 | h2
    · exact ne_of_distinct_suffixes h2 hb (by decide) (by decide)
    · intro he
      subst he
      have := suffix_nested (endsWithS_iff.mp hb) (endsWithS_iff.mp h2) (by decide)
      exact absurd this (by decide)

/-- Members of a listing with `Nodup` names are determined by their name. -/
theorem eq_of_name_eq {l : List Item} (hN : (l.map Item.name).Nodup)
    {v w : Item} (hv : v ∈ l) (hw : w ∈ l) (h : v.name = w.name) : v = w :=
  List.inj_on_of_nodup_map hN hv hw h

/-! Structural lemmas about the three orchestrator passes. -/

/-- After the first pass the consumed set is exactly the list of names
emitted so far. -/
theorem pass1_consumed (env : Env) (l : List Item) :
    (pass1 env l).2 = (pass1 env l).1.map TranscriptFile.name := by
  induction l with
  | nil => rfl
  | cons v rest ih =>
      rw [pass1]
      cases h : env.download v.downloadUrl with
      | ok c => simpa [h, mkStandalone] using ih
      | error e => simpa [h] using ih

/-- Names emitted by the first pass form a sublist of the input names. -/
theorem pass1_names_sublist (env : Env) (l : List Item) :
    ((pass1 env l).1.map TranscriptFile.name).Sublist (l.map Item.name) := by
  induction l with
  | nil => simp [pass1]
  | cons v rest ih =>
      rw [pass1]
      cases h : env.download v.downloadUrl with
      | ok c =>
          simpa [h, mkStandalone] using List.Sublist.cons₂ v.name ih
      | error e =>
          simpa [h] using List.Sublist.cons v.name ih

/-- Every transcript emitted by the first pass is a standalone record for a
member of the input list whose download succeeded. -/
theorem pass1_mem (env : Env) (l : List Item) :
    ∀ t ∈ (pass1 env l).1, t.videoFileName = none ∧ t.videoUrl = none ∧
      ∃ v, v ∈ l ∧ v.name = t.name ∧ ∃ c, env.download v.downloadUrl = Except.ok c := by
  induction l with
  | nil => simp [pass1]
  | cons v rest ih =>
      rw [pass1]
      cases h : env.download v.downloadUrl with
      | ok c =>
          intro t ht
          rcases List.mem_cons.mp ht with rfl | ht
          · exact ⟨rfl, rfl, v, List.mem_cons_self v rest, rfl, c, h⟩
          · obtain ⟨h1, h2, w, hw, hn, hc⟩ := ih t ht
            exact ⟨h1, h2, w, List.mem_cons_of_mem v hw, hn, hc⟩
      | error e =>
          intro t ht
          obtain ⟨h1, h2, w, hw, hn, hc⟩ := ih t ht
          exact ⟨h1, h2, w, List.mem_cons_of_mem v hw, hn, hc⟩

/-- Every input file whose download succeeds is emitted by the first pass. -/
theorem pass1_complete (env : Env) (l : List Item) :
    ∀ v ∈ l, (∃ c, env.download v.downloadUrl = Except.ok c) →
      v.name ∈ (pass1 env l).1.map TranscriptFile.name := by
  induction l with
  | nil => simp
  | cons w rest ih =>
      intro v hv hc
      rcases List.mem_cons.mp hv with rfl | hv
      · obtain ⟨c, hc⟩ := hc
        rw [pass1, hc]
        simp [mkStandalone]
      · rw [pass1]
        cases h : env.download w.downloadUrl with
        | ok c => simpa [mkStandalone] using Or.inr (List.mem_map.mp (ih v hv hc))
        | error e => exact ih v hv hc

/-- `List.contains` on names decides membership. -/
theorem contains_iff {l : List Name} {a : Name} : l.contains a = true ↔ a ∈ l := by
  simp [List.contains, List.elem_iff]

/-- With a resolver that never finds anything, one recording-loop step
either changes nothing or attaches an unconsumed same-folder VTT and
consumes it. -/
theorem pass2Step_cases (env : Env) (vtt : List Item) (m : Item)
    (processed : List Name)
    (hR : ∀ i n u, tryFetchTranscriptFromDriveItem env i n u = none) :
    pass2Step env vtt m processed = (none, processed) ∨
    ∃ v c, v ∈ vtt ∧ v.name = baseNameScan m.name ++ ((".vtt").data) ∧
      v.name ∉ processed ∧ env.download v.downloadUrl = Except.ok c ∧
      pass2Step env vtt m processed = (some (mkAttached v c m), v.name :: processed) := by
  by_cases h : (baseNameScan m.name ++ ((".vtt").data)) ∈ processed
  · left
    simp [pass2Step, h]
  · cases hf : vtt.find? (fun f => f.name == baseNameScan m.name ++ ((".vtt").data)) with
    | none =>
        left
        simp [pass2Step, h, hf, hR]
    | some v =>
        have hveq : v.name = baseNameScan m.name ++ ((".vtt").data) := by
          have hb := List.find?_some hf
          simpa using hb
        have hcv : v.name ∉ processed := by rw [hveq]; exact h
        cases hdl : env.download v.downloadUrl with
        | ok c =>
            right
            exact ⟨v, c, List.mem_of_find?_eq_some hf, hveq, hcv, hdl,
              by simp [pass2Step, h, hf, hcv, hdl]⟩
        | error e =>
            left
            simp [pass2Step, h, hf, hcv, hdl]

/-- With a resolver that never finds anything, the recording loop only
emits attachments of unconsumed listing VTTs: every emitted transcript's
name is new with respect to the incoming consumed set, is the name of a
listing VTT whose download succeeded, carries the associated recording's
identity, and the emitted names are distinct. -/
theorem pass2_spec (env : Env) (vtt : List Item)
    (hR : ∀ i n u, tryFetchTranscriptFromDriveItem env i n u = none) :
    ∀ (l : List Item) (processed : List Name),
      (∀ t ∈ (pass2 env vtt l processed).1,
         t.name ∉ processed ∧
         (∃ v c, v ∈ vtt ∧ v.name = t.name ∧
            env.download v.downloadUrl = Except.ok c) ∧
         (∃ m, m ∈ l ∧ t.videoFileName = some m.name ∧
            ∃ v, v ∈ vtt ∧ v.name = baseNameScan m.name ++ ((".vtt").data))) ∧
      ((pass2 env vtt l processed).1.map TranscriptFile.name).Nodup := by
  intro l
  induction l with
  | nil => intro processed; simp [pass2]
  | cons m rest ih =>
      intro processed
      rcases pass2Step_cases env vtt m processed hR with hstep |
        ⟨v, c, hv, hvn, hvp, hdl, hstep⟩
      · constructor
        · intro t ht
          rw [pass2, hstep] at ht
          simp only [Option.toList_none, List.nil_append] at ht
          obtain ⟨h1, h2, mm, hmm, h3⟩ := (ih processed).1 t ht
          exact ⟨h1, h2, mm, List.mem_cons_of_mem m hmm, h3⟩
        · rw [pass2, hstep]
          simpa using (ih processed).2
      · constructor
        · intro t ht
          rw [pass2, hstep] at ht
          simp only [Option.toList_some, List.cons_append, List.nil_append] at ht
          rcases List.mem_cons.mp ht with rfl | ht
          · exact ⟨hvp, ⟨v, c, hv, rfl, hdl⟩,
              m, List.mem_cons_self m rest, rfl, v, hv, hvn⟩
          · obtain ⟨h1, h2, mm, hmm, h3⟩ := (ih (v.name :: processed)).1 t ht
            exact ⟨fun hm => h1 (List.mem_cons_of_mem _ hm), h2,
              mm, List.mem_cons_of_mem m hmm, h3⟩
        · rw [pass2, hstep]
          simp only [Option.toList_some, List.cons_append, List.nil_append,
            List.map_cons, List.nodup_cons]
          refine ⟨?_, (ih (v.name :: processed)).2⟩
          intro hmem
          obtain ⟨t, ht, htn⟩ := List.mem_map.mp hmem
          exact ((ih (v.name :: processed)).1 t ht).1 (htn ▸ List.mem_cons_self _ _)

/-- Every transcript emitted by the third pass is a standalone record for a
`.txt`/`.docx` member of the input list. -/
theorem pass3_mem (env : Env) (l : List Item) :
    ∀ t ∈ pass3 env l, t.videoFileName = none ∧
      ∃ f, f ∈ l ∧ isTextItem f = true ∧ f.name = t.name := by
  induction l with
  | nil => simp [pass3]
  | cons f rest ih =>
      rw [pass3]
      by_cases hf : isTextItem f = true
      · rw [if_pos hf]
        cases h : env.download f.downloadUrl with
        | ok c =>
            intro t ht
            rcases List.mem_cons.mp ht with rfl | ht
            · exact ⟨rfl, f, List.mem_cons_self f rest, hf, rfl⟩
            · obtain ⟨h1, w, hw, hw2, hw3⟩ := ih t ht
              exact ⟨h1, w, List.mem_cons_of_mem f hw, hw2, hw3⟩
        | error e =>
            intro t ht
            obtain ⟨h1, w, hw, hw2, hw3⟩ := ih t ht
            exact ⟨h1, w, List.mem_cons_of_mem f hw, hw2, hw3⟩
      · rw [if_neg hf]
        intro t ht
        obtain ⟨h1, w, hw, hw2, hw3⟩ := ih t ht
        exact ⟨h1, w, List.mem_cons_of_mem f hw, hw2, hw3⟩

/-- Names emitted by the third pass form a sublist of the input names. -/
theorem pass3_names_sublist (env : Env) (l : List Item) :
    ((pass3 env l).map TranscriptFile.name).Sublist (l.map Item.name) := by
  induction l with
  | nil => simp [pass3]
  | cons f rest ih =>
      rw [pass3]
      by_cases hf : isTextItem f = true
      · rw [if_pos hf]
        cases h : env.download f.downloadUrl with
        | ok c => simpa [mkStandalone] using List.Sublist.cons₂ f.name ih
        | error e => exact List.Sublist.cons f.name ih
      · rw [if_neg hf]
        exact List.Sublist.cons f.name ih

/-- Every entry of the handler's error list is keyed by the name of one of
the scanned transcripts. -/
theorem handleLoop_errors (persist : TranscriptFile → PersistResult) :
    ∀ (ts : List TranscriptFile), ∀ e ∈ (handleLoop persist ts).2,
      ∃ t, t ∈ ts ∧ e.1 = t.name := by
  intro ts
  induction ts with
  | nil => simp [handleLoop]
  | cons t rest ih =>
      intro e he
      rw [handleLoop] at he
      cases hp : persist t with
      | okData =>
          rw [hp] at he
          obtain ⟨w, hw, hwe⟩ := ih e he
          exact ⟨w, List.mem_cons_of_mem t hw, hwe⟩
      | okNone =>
          rw [hp] at he
          obtain ⟨w, hw, hwe⟩ := ih e he
          exact ⟨w, List.mem_cons_of_mem t hw, hwe⟩
      | errMsg msg =>
          rw [hp] at he
          rcases List.mem_cons.mp he with rfl | he
          · exact ⟨t, List.mem_cons_self t rest, rfl⟩
          · obtain ⟨w, hw, hwe⟩ := ih e he
            exact ⟨w, List.mem_cons_of_mem t hw, hwe⟩
      | throwsMsg msg =>
          rw [hp] at he
          rcases List.mem_cons.mp he with rfl | he
          · exact ⟨t, List.mem_cons_self t rest, rfl⟩
          · obtain ⟨w, hw, hwe⟩ := ih e he
            exact ⟨w, List.mem_cons_of_mem t hw, hwe⟩

/-- A member of the VTT partition has a name ending in `.vtt`. -/
theorem vtt_filter_ends {allFiles : List Item} {v : Item}
    (hv : v ∈ allFiles.filter isVttItem) : endsVtt v.name = true := by
  have := (List.mem_filter.mp hv).2
  exact (Bool.and_eq_true _ _ |>.mp this).2

/-- C1 (amended): the consumed-set makes the names emitted by the direct
orchestrator passes pairwise distinct — in every scan in which the resolver
contributes nothing, no file name appears twice in the output.  (The
resolver's fallback results bypass the consumed-set; see the
counterexample.) -/
theorem scan_names_nodup_without_resolver (env : Env) (allFiles : List Item)
    (hN : (allFiles.map Item.name).Nodup)
    (hR : ∀ i n u, tryFetchTranscriptFromDriveItem env i n u = none) :
    ((fetchSharePointTranscripts env allFiles).map TranscriptFile.name).Nodup := by
  have hscan : fetchSharePointTranscripts env allFiles =
      (pass1 env (allFiles.filter isVttItem)).1 ++
      (pass2 env (allFiles.filter isVttItem) (allFiles.filter isMp4Recording)
        (pass1 env (allFiles.filter isVttItem)).2).1 ++
      pass3 env allFiles := rfl
  rw [hscan, List.append_assoc, List.map_append, List.map_append]
  have hvttsub : ((allFiles.filter isVttItem).map Item.name).Sublist
      (allFiles.map Item.name) := (List.filter_sublist allFiles).map Item.name
  have h1 : ((pass1 env (allFiles.filter isVttItem)).1.map TranscriptFile.name).Nodup :=
    ((pass1_names_sublist env _).trans hvttsub).nodup hN
  have hspec := pass2_spec env (allFiles.filter isVttItem) hR
    (allFiles.filter isMp4Recording) (pass1 env (allFiles.filter isVttItem)).2
  have h3 : ((pass3 env allFiles).map TranscriptFile.name).Nodup :=
    (pass3_names_sublist env allFiles).nodup hN
  have hmem1 : ∀ a ∈ (pass1 env (allFiles.filter isVttItem)).1.map TranscriptFile.name,
      endsVtt a = true := by
    intro a ha
    obtain ⟨t, ht, rfl⟩ := List.mem_map.mp ha
    obtain ⟨_, _, v, hv, hvn, _⟩ := pass1_mem env _ t ht
    exact hvn ▸ vtt_filter_ends hv
  have hmem2 : ∀ a ∈ (pass2 env (allFiles.filter isVttItem)
      (allFiles.filter isMp4Recording)
      (pass1 env (allFiles.filter isVttItem)).2).1.map TranscriptFile.name,
      endsVtt a = true ∧
      a ∉ (pass1 env (allFiles.filter isVttItem)).1.map TranscriptFile.name := by
    intro a ha
    obtain ⟨t, ht, rfl⟩ := List.mem_map.mp ha
    obtain ⟨hnp, ⟨v, c, hv, hvn, _⟩, _⟩ := hspec.1 t ht
    constructor
    · exact hvn ▸ vtt_filter_ends hv
    · rw [← pass1_consumed]
      exact hnp
  have hmem3 : ∀ a ∈ (pass3 env allFiles).map TranscriptFile.name,
      (endsWithS ((".txt").data) a || endsWithS ((".docx").data) a) = true := by
    intro a ha
    obtain ⟨t, ht, rfl⟩ := List.mem_map.mp ha
    obtain ⟨_, f, _, hf2, hf3⟩ := pass3_mem env allFiles t ht
    have := (Bool.and_eq_true _ _ |>.mp hf2).2
    exact hf3 ▸ this
  refine List.nodup_append.mpr ⟨h1, List.nodup_append.mpr ⟨hspec.2, h3, ?_⟩, ?_⟩
  · intro a ha2 ha3
    exact vtt_ne_text (hmem2 a ha2).1 (hmem3 a ha3) rfl
  · intro a ha1 hmem
    rcases List.mem_append.mp hmem with ha2 | ha3
    · exact (hmem2 a ha2).2 ha1
    · exact vtt_ne_text (hmem1 a ha1) (hmem3 a ha3) rfl

/-- C1 witness: a concrete three-file listing scanned with no resolver
contribution has pairwise distinct output names. -/
theorem scan_names_nodup_witness :
    ((fetchSharePointTranscripts envWeekly [itWeeklyMp4, itWeeklyVtt]).map
      TranscriptFile.name).Nodup :=
  scan_names_nodup_without_resolver envWeekly [itWeeklyMp4, itWeeklyVtt]
    (by decide) (fun i n u => rfl)

/-- C1 counterexample: the resolver's parent-folder rescan re-lists the
same folder, matches `Alpha notes.vtt` for the recording
`Alpha-Meeting Recording.mp4`, and attaches it even though the first pass
already emitted it standalone — the same VTT name appears in two returned
transcripts of one scan. -/
theorem scan_duplicate_vtt_cx :
    (fetchSharePointTranscripts envAlpha [itAlphaVtt, itAlphaMp4]).countP
      (fun t => t.name == ("Alpha notes.vtt").data) = 2 := by decide

/-- C2 counterexample: in the two-file `Weekly Sync` scenario no returned
transcript carries the recording as `associatedVideoFileName` — the claim
that the VTT is attached to the recording fails on the code. -/
theorem weekly_sync_not_attached_cx :
    ¬ ∃ t ∈ fetchSharePointTranscripts envWeekly [itWeeklyMp4, itWeeklyVtt],
        t.videoFileName =
          some (("Weekly Sync_240115UTC-Meeting Recording.mp4").data) := by
  decide

/-- C2 (amended): the two-file `Weekly Sync` scenario yields exactly one
ResolvedTranscript, for `Weekly Sync.vtt`, emitted standalone with no
video association: the VTT pass consumes every same-folder VTT first, so
the recording pass finds its expected VTT name already consumed and skips
the association. -/
theorem weekly_sync_standalone :
    fetchSharePointTranscripts envWeekly [itWeeklyMp4, itWeeklyVtt] =
      [{ name := ("Weekly Sync.vtt").data, content := ("WEBVTT").data,
         url := ("wv").data, lastModified := ("t1").data,
         videoUrl := none, videoFileName := none }] := by
  decide

/-- C3 counterexample: `B.vtt`'s download throws while `C.vtt` succeeds;
the failed file is excluded from the results and the scan continues, but
the caller-facing `errors` list stays empty — the file does not appear
once in `errors[]` as claimed. -/
theorem download_failure_unreported_cx :
    (runFetchAction envBadGood persistAllOk [itBadVtt, itGoodVtt]).errors = [] ∧
    (fetchSharePointTranscripts envBadGood [itBadVtt, itGoodVtt]).map
      TranscriptFile.name = [("C.vtt").data] := by
  decide

/-- C3 (amended): a VTT whose content download fails is excluded from the
scan results and the scan continues with the remaining files, but the
failure is only logged: it produces no entry in the caller-facing
`errors[]` list, which records persistence failures only. -/
theorem download_failure_excluded_and_unreported (env : Env)
    (persist : TranscriptFile → PersistResult) (allFiles : List Item) (v : Item)
    (hN : (allFiles.map Item.name).Nodup)
    (hR : ∀ i n u, tryFetchTranscriptFromDriveItem env i n u = none)
    (hv : v ∈ allFiles) (hvtt : isVttItem v = true)
    (hdl : env.download v.downloadUrl = Except.error ()) :
    v.name ∉ (fetchSharePointTranscripts env allFiles).map TranscriptFile.name ∧
    (∀ e ∈ (runFetchAction env persist allFiles).errors, e.1 ≠ v.name) ∧
    (∀ w ∈ allFiles, isVttItem w = true →
       (∃ c, env.download w.downloadUrl = Except.ok c) →
       w.name ∈ (fetchSharePointTranscripts env allFiles).map TranscriptFile.name) := by
  have hscan : fetchSharePointTranscripts env allFiles =
      (pass1 env (allFiles.filter isVttItem)).1 ++
      (pass2 env (allFiles.filter isVttItem) (allFiles.filter isMp4Recording)
        (pass1 env (allFiles.filter isVttItem)).2).1 ++
      pass3 env allFiles := rfl
  have hvv : v ∈ allFiles.filter isVttItem := List.mem_filter.mpr ⟨hv, hvtt⟩
  have hnotin : v.name ∉ (fetchSharePointTranscripts env allFiles).map
      TranscriptFile.name := by
    rw [hscan]
    intro hmem
    rw [List.append_assoc, List.map_append, List.map_append] at hmem
    rcases List.mem_append.mp hmem with h1 | h23
    · obtain ⟨t, ht, htn⟩ := List.mem_map.mp h1
      obtain ⟨_, _, w, hw, hwn, c, hwc⟩ := pass1_mem env _ t ht
      have hweq : w = v := eq_of_name_eq hN ((List.mem_filter.mp hw).1) hv
        (by rw [hwn, htn])
      rw [hweq, hdl] at hwc
      exact Except.noConfusion hwc
    · rcases List.mem_append.mp h23 with h2 | h3
      · obtain ⟨t, ht, htn⟩ := List.mem_map.mp h2
        obtain ⟨_, ⟨w, c, hw, hwn, hwc⟩, _⟩ :=
          (pass2_spec env _ hR _ _).1 t ht
        have hweq : w = v := eq_of_name_eq hN ((List.mem_filter.mp hw).1) hv
          (by rw [hwn, htn])
        rw [hweq, hdl] at hwc
        exact Except.noConfusion hwc
      · obtain ⟨t, ht, htn⟩ := List.mem_map.mp h3
        obtain ⟨_, f, _, hf2, hf3⟩ := pass3_mem env allFiles t ht
        have hfa : (endsWithS ((".txt").data) f.name ||
            endsWithS ((".docx").data) f.name) = true :=
          (Bool.and_eq_true _ _ |>.mp hf2).2
        have hvtte : endsVtt v.name = true :=
          (Bool.and_eq_true _ _ |>.mp hvtt).2
        exact vtt_ne_text hvtte hfa (by rw [hf3, htn])
  refine ⟨hnotin, ?_, ?_⟩
  · intro e he
    have herr : e ∈ (handleLoop persist
        (fetchSharePointTranscripts env allFiles)).2 := he
    obtain ⟨t, ht, hte⟩ := handleLoop_errors persist _ e herr
    intro hcontra
    exact hnotin (List.mem_map.mpr ⟨t, ht, by rw [← hte, hcontra]⟩)
  · intro w hw hwvtt hwc
    rw [hscan, List.append_assoc, List.map_append]
    exact List.mem_append.mpr (Or.inl
      (pass1_complete env _ w (List.mem_filter.mpr ⟨hw, hwvtt⟩) hwc))

/-- C3 witness: the amended statement at the concrete `B.vtt`/`C.vtt`
scenario. -/
theorem download_failure_excluded_witness :
    itBadVtt.name ∉ (fetchSharePointTranscripts envBadGood
      [itBadVtt, itGoodVtt]).map TranscriptFile.name ∧
    (∀ e ∈ (runFetchAction envBadGood persistAllOk
        [itBadVtt, itGoodVtt]).errors, e.1 ≠ itBadVtt.name) ∧
    (∀ w ∈ [itBadVtt, itGoodVtt], isVttItem w = true →
       (∃ c, envBadGood.download w.downloadUrl = Except.ok c) →
       w.name ∈ (fetchSharePointTranscripts envBadGood
         [itBadVtt, itGoodVtt]).map TranscriptFile.name) :=
  download_failure_excluded_and_unreported envBadGood persistAllOk
    [itBadVtt, itGoodVtt] itBadVtt (by decide) (fun i n u => rfl)
    (by decide) (by decide) rfl

/-- With a resolver that never finds anything, every scanned transcript's
name ends in `.vtt`, `.txt` or `.docx`. -/
theorem scan_name_suffix (env : Env) (allFiles : List Item)
    (hR : ∀ i n u, tryFetchTranscriptFromDriveItem env i n u = none) :
    ∀ t ∈ fetchSharePointTranscripts env allFiles,
      (endsVtt t.name || (endsWithS ((".txt").data) t.name ||
        endsWithS ((".docx").data) t.name)) = true := by
  have hscan : fetchSharePointTranscripts env allFiles =
      (pass1 env (allFiles.filter isVttItem)).1 ++
      (pass2 env (allFiles.filter isVttItem) (allFiles.filter isMp4Recording)
        (pass1 env (allFiles.filter isVttItem)).2).1 ++
      pass3 env allFiles := rfl
  intro t ht
  rw [hscan, List.append_assoc] at ht
  rcases List.mem_append.mp ht with h1 | h23
  · obtain ⟨_, _, v, hv, hvn, _⟩ := pass1_mem env _ t h1
    rw [Bool.or_eq_true]
    exact Or.inl (hvn ▸ vtt_filter_ends hv)
  · rcases List.mem_append.mp h23 with h2 | h3
    · obtain ⟨_, ⟨v, c, hv, hvn, _⟩, _⟩ := (pass2_spec env _ hR _ _).1 t h2
      rw [Bool.or_eq_true]
      exact Or.inl (hvn ▸ vtt_filter_ends hv)
    · obtain ⟨_, f, _, hf2, hf3⟩ := pass3_mem env allFiles t h3
      rw [Bool.or_eq_true]
      exact Or.inr (hf3 ▸ (Bool.and_eq_true _ _ |>.mp hf2).2)

/-- C4 counterexample: a listing holding exactly one recording for which
every strategy fails yields no transcript and no error, and the
caller-facing `total` is `0` — the unresolved recording is not counted in
the reported denominator. -/
theorem unresolved_recording_total_cx :
    fetchSharePointTranscripts envAllFail [itAlphaMp4] = [] ∧
    (runFetchAction envAllFail persistAllOk [itAlphaMp4]).errors = [] ∧
    (runFetchAction envAllFail persistAllOk [itAlphaMp4]).total = 0 ∧
    ([itAlphaMp4].filter isMp4Recording).length = 1 := by
  decide

/-- C4 (amended): a recording all of whose resolution strategies fail
yields no ResolvedTranscript and no `errors[]` entry, and the
caller-facing `total` equals the number of resolved transcript files, so
the unresolved recording is not part of the reported denominator. -/
theorem unresolved_recording_silent (env : Env)
    (persist : TranscriptFile → PersistResult) (allFiles : List Item) (m : Item)
    (hN : (allFiles.map Item.name).Nodup)
    (hR : ∀ i n u, tryFetchTranscriptFromDriveItem env i n u = none)
    (hm : m ∈ allFiles) (hmp4 : isMp4Recording m = true)
    (hnovtt : ∀ w ∈ allFiles, isVttItem w = true →
       w.name ≠ baseNameScan m.name ++ ((".vtt").data)) :
    (∀ t ∈ fetchSharePointTranscripts env allFiles,
       t.videoFileName ≠ some m.name) ∧
    (∀ e ∈ (runFetchAction env persist allFiles).errors, e.1 ≠ m.name) ∧
    (runFetchAction env persist allFiles).total =
      (fetchSharePointTranscripts env allFiles).length := by
  have hscan : fetchSharePointTranscripts env allFiles =
      (pass1 env (allFiles.filter isVttItem)).1 ++
      (pass2 env (allFiles.filter isVttItem) (allFiles.filter isMp4Recording)
        (pass1 env (allFiles.filter isVttItem)).2).1 ++
      pass3 env allFiles := rfl
  refine ⟨?_, ?_, rfl⟩
  · intro t ht hcontra
    rw [hscan, List.append_assoc] at ht
    rcases List.mem_append.mp ht with h1 | h23
    · obtain ⟨hvf, _, _⟩ := pass1_mem env _ t h1
      rw [hvf] at hcontra
      exact Option.noConfusion hcontra
    · rcases List.mem_append.mp h23 with h2 | h3
      · obtain ⟨_, _, m2, hm2, hvf, v, hv, hvn⟩ :=
          (pass2_spec env _ hR _ _).1 t h2
        rw [hvf] at hcontra
        have hname : m2.name = m.name := Option.some.inj hcontra
        have hm2l : m2 ∈ allFiles := (List.mem_filter.mp hm2).1
        have hm2m : m2 = m := eq_of_name_eq hN hm2l hm hname
        have hvl : v ∈ allFiles := (List.mem_filter.mp hv).1
        have hvi : isVttItem v = true := (List.mem_filter.mp hv).2
        exact hnovtt v hvl hvi (hm2m ▸ hvn)
      · obtain ⟨hvf, _, _⟩ := pass3_mem env allFiles t h3
        rw [hvf] at hcontra
        exact Option.noConfusion hcontra
  · intro e he
    obtain ⟨t, ht, hte⟩ := handleLoop_errors persist _ e he
    have hts := scan_name_suffix env allFiles hR t ht
    have hmp : endsWithS ((".mp4").data) m.name = true := by
      have := (Bool.and_eq_true _ _ |>.mp hmp4).1
      exact (Bool.and_eq_true _ _ |>.mp this).2
    intro hcontra
    exact scanname_ne_mp4 hts hmp (by rw [← hte, hcontra])

/-- C4 witness: the amended statement at a concrete single-recording
listing with an all-failing environment. -/
theorem unresolved_recording_silent_witness :
    (∀ t ∈ fetchSharePointTranscripts envAllFail [itAlphaMp4],
       t.videoFileName ≠ some itAlphaMp4.name) ∧
    (∀ e ∈ (runFetchAction envAllFail persistAllOk [itAlphaMp4]).errors,
       e.1 ≠ itAlphaMp4.name) ∧
    (runFetchAction envAllFail persistAllOk [itAlphaMp4]).total =
      (fetchSharePointTranscripts envAllFail [itAlphaMp4]).length :=
  unresolved_recording_silent envAllFail persistAllOk [itAlphaMp4] itAlphaMp4
    (by decide) (fun i n u => rfl) (by decide) (by decide) (by decide)

/-- Case-insensitive equality is reflexive. -/
theorem eqCI_refl (a : Name) : eqCI a a = true := by simp [eqCI]

/-- A name always case-insensitively ends with its own literal suffix. -/
theorem suffixCI_append_self (p X : Name) : suffixCI p (X ++ p) = true := by
  have h1 : (X ++ p).length - p.length = X.length := by
    simp [List.length_append]
  have h2 : (X ++ p).drop ((X ++ p).length - p.length) = p := by
    rw [h1]
    exact List.drop_left X p
  simp [suffixCI, h2, eqCI_refl, List.length_append]

/-- Stripping a suffix the name actually carries removes exactly it. -/
theorem stripSuffixCI_append_self (p X : Name) :
    stripSuffixCI p (X ++ p) = X := by
  have h1 : (X ++ p).length - p.length = X.length := by
    simp [List.length_append]
  simp [stripSuffixCI, suffixCI_append_self, h1, List.take_left]

/-- Stripping a suffix the name does not carry changes nothing. -/
theorem stripSuffixCI_of_neg {p s : Name} (h : suffixCI p s = false) :
    stripSuffixCI p s = s := by
  simp [stripSuffixCI, h]

/-- The timestamp rule fires on `X ++ '_' ++ six digits ++
`UTC-Meeting Recording.mp4`` and strips exactly that suffix. -/
theorem ruleOne_append (X d : Name) (hd6 : d.length = 6)
    (hdd : d.all Char.isDigit = true) :
    ruleOne (X ++ '_' :: (d ++ ("UTC-Meeting Recording.mp4").data)) = some X := by
  have hP : (("UTC-Meeting Recording.mp4").data).length = 25 := rfl
  have hs : (X ++ '_' :: (d ++ ("UTC-Meeting Recording.mp4").data)).length =
      X.length + 32 := by
    simp [List.length_append, hd6, hP]
  have hassoc : X ++ '_' :: (d ++ ("UTC-Meeting Recording.mp4").data) =
      (X ++ '_' :: d) ++ ("UTC-Meeting Recording.mp4").data := by
    rw [List.append_assoc, List.cons_append]
  have hA : (X ++ '_' :: (d ++ ("UTC-Meeting Recording.mp4").data)).drop
      ((X ++ '_' :: (d ++ ("UTC-Meeting Recording.mp4").data)).length - 25) =
      ("UTC-Meeting Recording.mp4").data := by
    rw [hs, hassoc]
    have hlen : X.length + 32 - 25 = (X ++ '_' :: d).length := by
      simp [List.length_append, hd6]
    rw [hlen]
    exact List.drop_left _ _
  have hassoc2 : X ++ '_' :: (d ++ ("UTC-Meeting Recording.mp4").data) =
      (X ++ ['_']) ++ (d ++ ("UTC-Meeting Recording.mp4").data) := by
    rw [List.append_assoc, List.cons_append, List.nil_append]
  have hB : ((X ++ '_' :: (d ++ ("UTC-Meeting Recording.mp4").data)).drop
      ((X ++ '_' :: (d ++ ("UTC-Meeting Recording.mp4").data)).length - 25 - 6)).take 6
      = d := by
    rw [hs, hassoc2]
    have hlen : X.length + 32 - 25 - 6 = (X ++ ['_']).length := by
      simp [List.length_append]
    rw [hlen, List.drop_left, ← hd6]
    exact List.take_left d _
  have hC : (X ++ '_' :: (d ++ ("UTC-Meeting Recording.mp4").data))[
      (X ++ '_' :: (d ++ ("UTC-Meeting Recording.mp4").data)).length - 25 - 7]? =
      some '_' := by
    rw [hs]
    have hlen : X.length + 32 - 25 - 7 = X.length := by omega
    rw [hlen, List.getElem?_append_right (Nat.le_refl X.length)]
    simp
  have htake : (X ++ '_' :: (d ++ ("UTC-Meeting Recording.mp4").data)).take
      ((X ++ '_' :: (d ++ ("UTC-Meeting Recording.mp4").data)).length - 25 - 7) =
      X := by
    rw [hs]
    have hlen : X.length + 32 - 25 - 7 = X.length := by omega
    rw [hlen]
    exact List.take_left X _
  have hc1 : decide (7 + 25 ≤
      (X ++ '_' :: (d ++ ("UTC-Meeting Recording.mp4").data)).length) = true := by
    rw [hs]
    simp
  have hc2 : eqCI ((X ++ '_' :: (d ++ ("UTC-Meeting Recording.mp4").data)).drop
      ((X ++ '_' :: (d ++ ("UTC-Meeting Recording.mp4").data)).length - 25))
      (("UTC-Meeting Recording.mp4").data) = true := by
    rw [hA]
    exact eqCI_refl _
  have hc3 : (((X ++ '_' :: (d ++ ("UTC-Meeting Recording.mp4").data)).drop
      ((X ++ '_' :: (d ++ ("UTC-Meeting Recording.mp4").data)).length - 25 - 6)).take 6).all
      Char.isDigit = true := by
    rw [hB]
    exact hdd
  have hc4 : ((X ++ '_' :: (d ++ ("UTC-Meeting Recording.mp4").data))[
      (X ++ '_' :: (d ++ ("UTC-Meeting Recording.mp4").data)).length - 25 - 7]? ==
      some '_') = true := by
    rw [hC]
    rfl
  simp only [ruleOne, hP]
  rw [hc1, hc2, hc3, hc4]
  simp
  have hlen2 : List.length X + (List.length d + 25 + 1) - 25 - 7 = List.length X := by
    omega
  rw [hlen2]
  exact List.take_left X _

/-- C5 counterexample: the stripping rules do not stop at the first match —
for `X = "A.mp4"` the name `X ++ "_123456UTC-Meeting Recording.mp4"`
normalizes to `"A"`, not to `X`, because the later `.mp4` rule is applied
to the first rule's output as well. -/
theorem baseName_chained_strip_cx :
    baseName (("A.mp4_123456UTC-Meeting Recording.mp4").data) = ("A").data ∧
    ("A").data ≠ ("A.mp4").data := by decide

/-- C5 (amended): `baseName` applies its three stripping rules as
successive suffix replacements, each applied to the previous result
rather than stopping at the first match; the identities
`baseName (X ++ "_ddddddUTC-Meeting Recording.mp4") = X`,
`baseName (X ++ "-Meeting Recording.mp4") = X` and
`baseName (X ++ ".mp4") = X` therefore hold exactly when the other rules
do not also fire on the name or on the intermediate results, in
particular whenever `X` itself does not case-insensitively end in `.mp4`
or `-Meeting Recording.mp4`. -/
theorem baseName_sequential_rules (X d : Name)
    (hd6 : d.length = 6) (hdd : d.all Char.isDigit = true)
    (hmr : suffixCI (("-Meeting Recording.mp4").data) X = false)
    (hmp4 : suffixCI ((".mp4").data) X = false) :
    baseName (X ++ '_' :: (d ++ ("UTC-Meeting Recording.mp4").data)) = X ∧
    (ruleOne (X ++ ("-Meeting Recording.mp4").data) = none →
       baseName (X ++ ("-Meeting Recording.mp4").data) = X) ∧
    (ruleOne (X ++ ((".mp4").data)) = none →
     suffixCI (("-Meeting Recording.mp4").data) (X ++ ((".mp4").data)) = false →
       baseName (X ++ ((".mp4").data)) = X) := by
  refine ⟨?_, ?_, ?_⟩
  · rw [baseName, ruleOne_append X d hd6 hdd]
    simp [stripSuffixCI_of_neg hmr, stripSuffixCI_of_neg hmp4]
  · intro h1
    rw [baseName, h1]
    simp [stripSuffixCI_append_self, stripSuffixCI_of_neg hmp4]
  · intro h1 h2
    rw [baseName, h1]
    simp [stripSuffixCI_of_neg h2, stripSuffixCI_append_self]

/-- C5 witness: the amended statement at `X = "Weekly Sync"`,
digits `240115`. -/
theorem baseName_sequential_rules_witness :
    baseName ((("Weekly Sync").data) ++ '_' :: ((("240115").data) ++
      ("UTC-Meeting Recording.mp4").data)) = ("Weekly Sync").data ∧
    (ruleOne ((("Weekly Sync").data) ++ ("-Meeting Recording.mp4").data) = none →
       baseName ((("Weekly Sync").data) ++ ("-Meeting Recording.mp4").data) =
         ("Weekly Sync").data) ∧
    (ruleOne ((("Weekly Sync").data) ++ ((".mp4").data)) = none →
     suffixCI (("-Meeting Recording.mp4").data)
       ((("Weekly Sync").data) ++ ((".mp4").data)) = false →
       baseName ((("Weekly Sync").data) ++ ((".mp4").data)) =
         ("Weekly Sync").data) :=
  baseName_sequential_rules (("Weekly Sync").data) (("240115").data)
    (by decide) (by decide) (by decide) (by decide)

/-- If listing the recording's own children returns a non-success status,
the stream strategy finds nothing (whatever the diagnostic calls do). -/
theorem stream_none_of_children_notOk (env : Env) (did fn : Name)
    (vu : Option Name) (h : env.children did = Resp.notOk) :
    tryFetchTranscriptFromStream env did fn vu = none := by
  rw [tryFetchTranscriptFromStream, streamBody, h]
  cases env.beta did <;> cases env.thumbs did <;> rfl

/-- If listing the recording's own children throws, the stream strategy's
own catch yields `null`. -/
theorem stream_none_of_children_throws (env : Env) (did fn : Name)
    (vu : Option Name) (h : env.children did = Resp.throws) :
    tryFetchTranscriptFromStream env did fn vu = none := by
  rw [tryFetchTranscriptFromStream, streamBody, h]

/-- A scan over items none of which is accepted finds nothing. -/
theorem findVttAndFetch_none (env : Env) (accept : Item → Bool)
    (fn : Name) (vu : Option Name) {l : List Item}
    (h : ∀ f ∈ l, accept f = false) :
    findVttAndFetch env accept fn vu l = Except.ok none := by
  induction l with
  | nil => rfl
  | cons f rest ih =>
      rw [findVttAndFetch, if_neg]
      · exact ih fun g hg => h g (List.mem_cons_of_mem f hg)
      · rw [h f (List.mem_cons_self f rest)]
        exact Bool.false_ne_true

/-- A scan over items whose first accepted member downloads successfully
returns that member's transcript. -/
theorem findVttAndFetch_found (env : Env) (accept : Item → Bool)
    (fn : Name) (vu : Option Name) {l : List Item} {k : Item} {c : Name}
    (hfind : l.find? accept = some k)
    (hdl : env.download k.downloadUrl = Except.ok c) :
    findVttAndFetch env accept fn vu l = Except.ok (some
      { name := k.name, content := c, url := k.webUrl,
        lastModified := k.lastModified, videoUrl := vu,
        videoFileName := some fn }) := by
  induction l with
  | nil => exact absurd hfind (by simp)
  | cons f rest ih =>
      cases hacc : accept f with
      | true =>
          rw [List.find?_cons_of_pos _ hacc] at hfind
          have hkf : f = k := Option.some.inj hfind
          subst hkf
          rw [findVttAndFetch, if_pos hacc, downloadTF, hdl]
      | false =>
          rw [List.find?_cons_of_neg _ (by rw [hacc]; exact Bool.false_ne_true)] at hfind
          rw [findVttAndFetch, if_neg (by rw [hacc]; exact Bool.false_ne_true)]
          exact ih hfind

/-- C6 counterexample: in `envThrowingSibling` the parent rescan matches
`A.vtt` but downloading it throws, and the resolver returns `null` without
ever reaching the search fallback — although the identical environment
with the parent listing unavailable (`envSearchOnly`) shows the search
fallback would have produced a transcript.  A thrown network failure
inside strategy 3 therefore does not let the cascade continue. -/
theorem strategy_exception_aborts_cx :
    tryFetchTranscriptFromDriveItem envThrowingSibling (("m1").data)
      (("A-Meeting Recording.mp4").data) none = none ∧
    tryFetchTranscriptFromDriveItem envSearchOnly (("m1").data)
      (("A-Meeting Recording.mp4").data) none =
      some { name := ("A search hit.vtt").data, content := ("SR").data,
             url := ("ws").data, lastModified := ("t4").data,
             videoUrl := none,
             videoFileName := some (("A-Meeting Recording.mp4").data) } := by
  decide

/-- C6 (amended): exceptions inside strategy 2 (the stream-children
lookup) are caught by that strategy's own handler and the cascade
continues with strategy 3; but within strategies 3-6 only a non-success
response lets the cascade continue — a thrown exception is caught by the
resolver's single outer handler, which abandons the remaining strategies
and returns `null` for the recording (without propagating). -/
theorem resolver_exception_handling :
    (∀ (env : Env) (did fn : Name) (vu : Option Name) (pid : Name)
       (f : Item) (c : Name),
       env.children did = Resp.throws →
       env.itemMeta did = Resp.ok pid →
       env.children pid = Resp.ok [f] →
       (f.isFile && candidateMatches (baseName fn) f.name) = true →
       env.download f.downloadUrl = Except.ok c →
       tryFetchTranscriptFromDriveItem env did fn vu =
         some { name := f.name, content := c, url := f.webUrl,
                lastModified := f.lastModified, videoUrl := vu,
                videoFileName := some fn }) ∧
    (∀ (env : Env) (did fn : Name) (vu : Option Name) (pid : Name),
       env.itemMeta did = Resp.ok pid →
       env.children pid = Resp.throws →
       tryFetchTranscriptFromDriveItem env did fn vu =
         tryFetchTranscriptFromStream env did fn vu) := by
  constructor
  · intro env did fn vu pid f c h1 h2 h3 hacc hdl
    have hstream := stream_none_of_children_throws env did fn vu h1
    have hfind : [f].find? (fun g => g.isFile && candidateMatches (baseName fn) g.name)
        = some f := List.find?_cons_of_pos _ hacc
    have hscan := findVttAndFetch_found env
      (fun g => g.isFile && candidateMatches (baseName fn) g.name) fn vu
      hfind hdl
    simp only [tryFetchTranscriptFromDriveItem, tryFetchTranscriptFromDriveItemE,
      tryFetchBody, hstream, h2, h3, parentPhase, hscan]
  · intro env did fn vu pid h1 h2
    cases hs : tryFetchTranscriptFromStream env did fn vu with
    | some t =>
        simp only [tryFetchTranscriptFromDriveItem, tryFetchTranscriptFromDriveItemE,
          tryFetchBody, hs]
    | none =>
        simp only [tryFetchTranscriptFromDriveItem, tryFetchTranscriptFromDriveItemE,
          tryFetchBody, hs, h1, h2]

/-- C6 witness: both amended statements at concrete environments — the
stream lookup throws yet the parent rescan still resolves `A.vtt`, and a
throwing parent listing collapses the resolver to the stream result. -/
theorem resolver_exception_handling_witness :
    tryFetchTranscriptFromDriveItem envStreamThrows (("m1").data)
      (("A-Meeting Recording.mp4").data) none =
      some { name := ("A.vtt").data, content := ("AB").data,
             url := ("wa").data, lastModified := ("t9").data,
             videoUrl := none,
             videoFileName := some (("A-Meeting Recording.mp4").data) } :=
  resolver_exception_handling.1 envStreamThrows (("m1").data)
    (("A-Meeting Recording.mp4").data) none (("p1").data) itOkSibling
    (("AB").data) rfl rfl rfl (by decide) rfl

/-- C7: the candidate matcher always accepts `baseName ++ ".vtt"`, and it
accepts `unrelated.vtt` exactly when that name contains the base name's
first hyphen-token (every stricter rule implies the loose containment
rule, which is itself one of the disjuncts). -/
theorem candidateMatches_spec (b : Name) :
    candidateMatches b (b ++ ((".vtt").data)) = true ∧
    (candidateMatches b (("unrelated.vtt").data) = true ↔
       firstToken b <:+: ("unrelated.vtt").data) := by
  constructor
  · have hend : endsVtt (b ++ ((".vtt").data)) = true :=
      endsWithS_iff.mpr ⟨b, rfl⟩
    simp [candidateMatches, hend]
  · constructor
    · intro h
      rw [candidateMatches, Bool.and_eq_true] at h
      have h2 := h.2
      rw [Bool.or_eq_true, Bool.or_eq_true, Bool.or_eq_true] at h2
      rcases h2 with ((h1 | h1) | h1) | h1
      · have he : ("unrelated.vtt").data = b ++ ((".vtt").data) :=
          beq_iff_eq.mp h1
        have hu : ("unrelated.vtt").data = ("unrelated").data ++ ((".vtt").data) := by
          decide
        have hb : ("unrelated").data = b :=
          (List.append_inj' (hu ▸ he) rfl).1
        rw [← hb]
        decide
      · have he : ("unrelated.vtt").data = b ++ (("-transcript.vtt").data) :=
          beq_iff_eq.mp h1
        have hlen := congrArg List.length he
        simp [List.length_append] at hlen
      · rw [Bool.and_eq_true] at h1
        have hpre : b <+: ("unrelated.vtt").data :=
          List.isPrefixOf_iff_prefix.mp h1.1
        exact ((firstToken_front b).trans hpre).isInfix
      · rw [Bool.and_eq_true] at h1
        exact containsSub_iff.mp h1.1
    · intro h
      have hc : containsSub (("unrelated.vtt").data) (firstToken b) = true :=
        containsSub_iff.mpr h
      have hend : endsVtt (("unrelated.vtt").data) = true := by decide
      simp [candidateMatches, hc, hend]

/-- C8: if strategies 2 and 3 find nothing and the parent listing holds a
folder whose name equals or contains the base name, the resolver lists
that folder and returns its first `.vtt` file child unconditionally — the
accepted file's name is never re-matched against the base name. -/
theorem subfolder_first_vtt_unconditional (env : Env) (did fn : Name)
    (vu : Option Name) (pid : Name) (allItems kids : List Item)
    (fm k : Item) (c : Name)
    (h1 : env.children did = Resp.notOk)
    (h2 : env.itemMeta did = Resp.ok pid)
    (h3 : env.children pid = Resp.ok allItems)
    (h4 : ∀ f ∈ allItems, (f.isFile && candidateMatches (baseName fn) f.name) = false)
    (h5 : allItems.find? (fun i => i.isFolder &&
            (i.name == baseName fn || containsSub i.name (baseName fn))) = some fm)
    (h6 : env.children fm.id = Resp.ok kids)
    (h7 : kids.find? (fun f => f.isFile && endsVtt f.name) = some k)
    (h8 : env.download k.downloadUrl = Except.ok c) :
    tryFetchTranscriptFromDriveItem env did fn vu =
      some { name := k.name, content := c, url := k.webUrl,
             lastModified := k.lastModified, videoUrl := vu,
             videoFileName := some fn } := by
  have hstream := stream_none_of_children_notOk env did fn vu h1
  have hA := findVttAndFetch_none env
    (fun f => f.isFile && candidateMatches (baseName fn) f.name) fn vu h4
  have hB := findVttAndFetch_found env
    (fun f => f.isFile && endsVtt f.name) fn vu h7 h8
  simp only [tryFetchTranscriptFromDriveItem, tryFetchTranscriptFromDriveItemE,
    tryFetchBody, hstream, h2, h3, parentPhase, hA, h5, h6, hB]

/-- C8 witness: with the parent folder holding only the `Weekly Sync`
subfolder whose sole child is `Totally Different.vtt`, the resolver for
`Weekly Sync_240115UTC-Meeting Recording.mp4` returns that unrelated VTT. -/
theorem subfolder_first_vtt_witness :
    tryFetchTranscriptFromDriveItem envSubfolder (("m1").data)
      (("Weekly Sync_240115UTC-Meeting Recording.mp4").data) none =
      some { name := ("Totally Different.vtt").data, content := ("UB").data,
             url := ("wu").data, lastModified := ("t8").data,
             videoUrl := none,
             videoFileName :=
               some (("Weekly Sync_240115UTC-Meeting Recording.mp4").data) } :=
  subfolder_first_vtt_unconditional envSubfolder (("m1").data)
    (("Weekly Sync_240115UTC-Meeting Recording.mp4").data) none
    (("p1").data) [itWeeklyFolder] [itUnrelatedVtt] itWeeklyFolder
    itUnrelatedVtt (("UB").data) rfl rfl rfl (by decide) (by decide)
    rfl (by decide) rfl

/-- C9: the per-recording resolver is total with respect to errors — for
every environment, including ones whose every call throws, the resolver's
outer catch yields a normal result: the `Except`-level function never
returns an error and the caller always receives `some` transcript or
`none`. -/
theorem resolver_never_throws (env : Env) (did fn : Name) (vu : Option Name) :
    ∃ r, tryFetchTranscriptFromDriveItemE env did fn vu = Except.ok r ∧
      tryFetchTranscriptFromDriveItem env did fn vu = r := by
  cases h : tryFetchBody env did fn vu with
  | ok r =>
      refine ⟨r, ?_, ?_⟩ <;>
        simp [tryFetchTranscriptFromDriveItem, tryFetchTranscriptFromDriveItemE, h]
  | error e =>
      refine ⟨none, ?_, ?_⟩ <;>
        simp [tryFetchTranscriptFromDriveItem, tryFetchTranscriptFromDriveItemE, h]

/-- C10: when the base name is empty or starts with a hyphen, its first
hyphen-token is empty, and the loose containment rules degenerate: the
candidate matcher, the `Transcript(s)`-subfolder filter and the search
filter each accept every `.vtt` name whatsoever. -/
theorem degenerate_token_accepts_all (b fn : Name)
    (hb : b = [] ∨ b.head? = some '-') (hv : endsVtt fn = true) :
    candidateMatches b fn = true ∧ transcriptFolderMatches b fn = true ∧
    searchResultMatches fn = true := by
  have htok : firstToken b = [] := by
    rcases hb with rfl | hb
    · rfl
    · cases b with
      | nil => rfl
      | cons a t =>
          have ha : a = '-' := by simpa using hb
          subst ha
          rfl
  have hc : containsSub fn [] = true := by
    cases fn <;> simp [containsSub, List.isPrefixOf]
  refine ⟨?_, ?_, hv⟩
  · simp [candidateMatches, hv, htok, hc]
  · simp [transcriptFolderMatches, hv, htok, hc]

/-- C10 witness: the degenerate acceptance at the concrete base name
`-x` and file name `anything.vtt`. -/
theorem degenerate_token_accepts_all_witness :
    candidateMatches (("-x").data) (("anything.vtt").data) = true ∧
    transcriptFolderMatches (("-x").data) (("anything.vtt").data) = true ∧
    searchResultMatches (("anything.vtt").data) = true :=
  degenerate_token_accepts_all (("-x").data) (("anything.vtt").data)
    (Or.inr (by decide)) (by decide)
